import Mathlib

/-!
A shallow embedding of the bosh-blobs-upgrader Go program
(`src/main.go` and its iterations in `src/unnamed/part_001`,
`src/unnamed/part_002`), covering the version-resolution loop, the
metalink shape checks, the download routine, the blob change-detection
loop, the version-marker file, and the final git-status / upload /
exit logic.

Conventions of the embedding:

* Go strings and byte slices are Lean `String`s.
* Nilable pointers (`*version.Version`) are `Option`s; calling a method
  on a nil pointer is a runtime panic, modelled by an explicit
  `GoPanic` outcome.
* External effects (downloads, `bosh` CLI calls, file writes, prints
  that classify a dependency) are reified as an `Action` list so that
  "the Content Fetcher was never invoked" is a statement about the
  produced action trace.
-/

namespace BoshBlobsUpgrader

/-- A runtime panic of the Go program (`panic`, nil-pointer dereference,
index out of range).  These abort the process with a non-zero exit and
are distinct from any typed error value. -/
inductive GoPanic where
  /-- Dereference of a nil `*version.Version` (method call on the nil
  result of a failed `version.NewVersion`).  `hashicorp/go-version`
  v1.2.0 reads the receiver's and the argument's fields without a nil
  check, so both a nil receiver and a nil argument panic. -/
  | nilVersionDeref
  deriving DecidableEq, Repr

/-- Model of `version.Version` from `hashicorp/go-version` v1.2.0,
restricted to its numeric dotted core (the only shape the claims
exercise): `Original()` is the unmodified input string and the parsed
numeric segments drive comparison. -/
structure GoVersion where
  original : String
  segments : List Nat
  deriving DecidableEq, Repr

/-- Split a character list at every occurrence of `c`
(model of `strings.Split` restricted to a one-character separator;
always returns at least one chunk, like the Go function). -/
def splitOnChar (c : Char) (s : List Char) : List (List Char) :=
  s.foldr
    (fun ch acc =>
      if ch = c then [] :: acc
      else
        match acc with
        | [] => [[ch]]
        | a :: as => (ch :: a) :: as)
    [[]]

/-- Decimal value of a digit list. -/
def digitsToNat (l : List Char) : Nat :=
  l.foldl (fun n c => n * 10 + (c.toNat - 48)) 0

/-- Model of `version.NewVersion` (hashicorp/go-version v1.2.0) on its
numeric core: an optional leading `v` followed by one or more
dot-separated decimal segments parses; anything else (including the
empty string) fails, which in Go yields a nil `*version.Version`
together with an error. -/
def newVersion (s : String) : Option GoVersion :=
  let core := match s.data with
    | 'v' :: rest => rest
    | cs => cs
  let parts := splitOnChar '.' core
  if parts.all (fun p => !p.isEmpty && p.all Char.isDigit) then
    some ⟨s, parts.map digitsToNat⟩
  else
    none

/-- Segment comparison of go-version's `Compare`: compare position by
position, padding the shorter list with zeros (an exhausted left side
is smaller exactly when the right side still holds a positive
segment; an exhausted right side pads to zeros, which are never
strictly greater). -/
def segLt : List Nat → List Nat → Bool
  | [], bs => bs.any (fun b => decide (0 < b))
  | _ :: _, [] => false
  | a :: as, b :: bs =>
    if a < b then true
    else if b < a then false
    else segLt as bs

/-- Model of `(*version.Version).LessThan` on two non-nil versions. -/
def lessThanV (a b : GoVersion) : Bool :=
  segLt a.segments b.segments

/-- The version-selection loop of `main` (src/main.go lines 227-235;
identical in every iteration of the program), already past index 0:

```
for i, rawVersion := range versionsList {
    if rawVersion == "" || i == 0 { continue }
    v, _ := version.NewVersion(rawVersion)
    if latestVersion.LessThan(v) { latestVersion = v }
}
```

`acc` is the nilable `latestVersion` pointer.  An empty line is skipped
before any method call; otherwise `latestVersion.LessThan(v)` is
evaluated, which panics when `latestVersion` is nil (nil receiver) or
when the just-parsed `v` is nil (the parse error was discarded by
`v, _ :=` and go-version's `Compare` dereferences the nil argument). -/
def runLoop : Option GoVersion → List String → Except GoPanic (Option GoVersion)
  | acc, [] => .ok acc
  | acc, raw :: rest =>
    if raw = "" then runLoop acc rest
    else
      match acc, newVersion raw with
      | none, _ => .error .nilVersionDeref
      | some _, none => .error .nilVersionDeref
      | some l, some v => runLoop (some (if lessThanV l v then v else l)) rest

/-- The Version Resolver (src/main.go lines 225-238): `lines` is
`strings.Split(strings.TrimSpace(stdout), "\n")`, which is always
non-empty.  The seed is `version.NewVersion(versionsList[0])` whose
error is assigned to `err` but never checked; the loop then runs over
the remaining indices, and finally `latestVersion.Original()` is
evaluated (line 238), which dereferences the pointer and panics if it
is still nil. -/
def resolveFromList (lines : List String) : Except GoPanic GoVersion :=
  let seed := newVersion (lines.headD "")
  match runLoop seed lines.tail with
  | .error p => .error p
  | .ok none => .error .nilVersionDeref
  | .ok (some v) => .ok v

/-- One URL entry of a metalink file (`file.URLs[i].URL`). -/
structure MFile where
  name : String
  urls : List String
  deriving DecidableEq, Repr

/-- Model of `metalink.Metalink` as used by the program (only `Files`,
`file.Name` and `file.URLs` are read). -/
structure Metalink where
  files : List MFile
  deriving DecidableEq, Repr

/-- How the artifact-locate step can abort.  All three are Go panics
(`panic(...)` or an index-out-of-range runtime error), not typed error
values. -/
inductive LocateFailure where
  /-- `panic("more than one metalink file is currently not supported.")` -/
  | multipleFilesPanic
  /-- `panic("more than one metalink URL per file is currently not supported.")` -/
  | multipleUrlsPanic
  /-- runtime error: index out of range, from `meta4.Files[0]` on an
  empty `Files` slice -/
  | indexOutOfRangePanic
  deriving DecidableEq, Repr

/-- The shape enforcement of the Artifact Locator (src/main.go lines
249-255, src/unnamed/part_002 lines 234-240):

```
if len(meta4.Files) > 1 { panic("more than one metalink file ...") }
file := meta4.Files[0]
if len(file.URLs) > 1 { panic("more than one metalink URL ...") }
```

The `> 1` guard does not cover the empty case, so `meta4.Files[0]`
on a descriptor with no files is an unguarded out-of-range access. -/
def locateFile (m : Metalink) : Except LocateFailure MFile :=
  if m.files.length > 1 then .error .multipleFilesPanic
  else
    match m.files with
    | [] => .error .indexOutOfRangePanic
    | f :: _ => if f.urls.length > 1 then .error .multipleUrlsPanic else .ok f

/-- The artifact-locate step including the handling of the
`metalink.Unmarshal` result (src/main.go lines 243-255, part_002 lines
228-240):

```
err = metalink.Unmarshal(meta4Bytes, &meta4)
if err != nil {
    errors.Wrap(err, "unmarshaling metalinks")
}
```

`errors.Wrap` returns the wrapped error, but the result is discarded
and there is no `return`/`panic`: on a parse failure execution falls
through with `meta4` still the zero value (empty `Files`). -/
def locateArtifact (parseResult : Except String Metalink) : Except LocateFailure MFile :=
  let meta4 : Metalink :=
    match parseResult with
    | .ok m => m
    | .error _ => ⟨[]⟩
  locateFile meta4

/-- Stand-in for the hex SHA-256 digest of a byte string, as computed
by `sha256sum` over the bytes present on disk.  The claims use only
that it is a deterministic function of the file content, so the model
keeps the content itself recognizable. -/
def sha256hex (s : String) : String :=
  String.mk (Nat.toDigits 16 (s.foldl (fun h c => (h * 131 + c.toNat) % 2 ^ 64) 5381))

/-- A blob entry of `config/blobs.yml` (`Blob` in the source; the
`Path` is the map key, `PackageName` its first path segment, `Sha` the
recorded digest string including its `sha256:` prefix). -/
structure Blob where
  path : String
  packageName : String
  sha : String
  deriving DecidableEq, Repr

/-- What the network transfer of one `http.Get` + `io.Copy` did. -/
inductive TransferOutcome where
  /-- `http.Get` itself returned an error (no body). -/
  | connectError
  /-- The body was streamed; `written` is what `io.Copy` wrote to the
  local file, and `copyFailed` records whether `io.Copy` returned an
  error after writing that (possibly truncated) prefix. -/
  | delivered (written : String) (copyFailed : Bool)
  deriving DecidableEq, Repr

/-- Error results of `DownloadFile` (the function returns `(Blob, error)`;
these are the non-nil error cases actually reachable in the source). -/
inductive FetchError where
  /-- the `http.Get` error, returned directly -/
  | transport
  /-- the `os.Create` error, returned directly -/
  | createFile
  /-- `fmt.Errorf("changing permissions: %v", err)` -/
  | chmod
  deriving DecidableEq, Repr

/-- Model of `DownloadFile` (src/main.go lines 84-113, identical in all
iterations):

```
resp, err := http.Get(url)
if err != nil { return blob, err }
out, err := os.Create(filepath)
if err != nil { return blob, err }
_, err = io.Copy(out, resp.Body)
err = os.Chmod(filepath, 0777)
if err != nil { return blob, fmt.Errorf("changing permissions: %v", err) }
sha, err := sha256sum(filepath)
...
blob.Sha = fmt.Sprintf("sha256:%s", sha)
return blob, err
```

The `io.Copy` error is assigned to `err` and immediately overwritten
by the `os.Chmod` result before it is ever inspected, so a transfer
that fails after writing a truncated prefix continues to the digest
computation over whatever bytes are on disk. -/
def downloadFile (t : TransferOutcome) (createFails chmodFails : Bool) :
    Except FetchError Blob :=
  match t with
  | .connectError => .error .transport
  | .delivered written _copyFailed =>
    if createFails then .error .createFile
    else if chmodFails then .error .chmod
    else .ok ⟨"", "", "sha256:" ++ sha256hex written⟩

/-- The observable steps a run performs, in order.  Prints that
classify a dependency are kept because the spec makes the
classification observable through them. -/
inductive Action where
  /-- a `DownloadFile(path, url)` call (the Content Fetcher) -/
  | fetch (path url : String)
  /-- `fmt.Printf("Skipping  package '%s'. Version is unchanged.\n", ...)` -/
  | skipUnchangedVersion (pkg : String)
  /-- `fmt.Printf("Skipping package '%s'. Blobs digest '%s' did not change.\n", ...)` -/
  | skipUnchangedDigest (pkg sha : String)
  /-- `boshRemoveBlob(path, releaseDir)` -/
  | removeBlob (path : String)
  /-- `boshAddBlob(localFile, newPath, releaseDir)` -/
  | addBlob (localFile newPath : String)
  /-- `ioutil.WriteFile(versionPath, []byte(v), 0755)` -/
  | writeMarker (v : String)
  deriving DecidableEq, Repr

/-- The body of the per-blob loop for one entry `b` of `blobs.yml`
(src/main.go lines 259-291, part_002 lines 256-286): entries of other
packages are skipped without any call; a matching entry is always
fetched, then its recorded digest is compared with the freshly
computed one (`newSha`, the same for every iteration since the same
URL is downloaded to the same path): equal digests are classified
unchanged, differing digests trigger remove-old / add-new. -/
def blobStep (pkg fileName blobFilePath url newSha : String) (b : Blob) :
    List Action :=
  if b.packageName = pkg then
    Action.fetch blobFilePath url ::
      (if b.sha = newSha then [Action.skipUnchangedDigest pkg newSha]
       else [Action.removeBlob b.path,
             Action.addBlob blobFilePath (pkg ++ "/" ++ fileName)])
  else []

/-- The whole per-blob loop `for _, b := range blobs { ... }` as the
concatenation of the per-entry steps (the Go range order over the map
is some enumeration of the entries; the claims do not depend on it). -/
def blobActions (pkg fileName blobFilePath url newSha : String) :
    List Blob → List Action
  | [] => []
  | b :: rest =>
    blobStep pkg fileName blobFilePath url newSha b ++
      blobActions pkg fileName blobFilePath url newSha rest

/-- The per-dependency pipeline of src/unnamed/part_002 (lines
242-292) after the artifact has been located: read the version marker
file (`marker = none` models `os.IsNotExist`; the file content is
compared verbatim against `latestVersion.Original()`), skip everything
on equality, otherwise run the blob loop and finally write the marker.

```
currentVersionBytes, err := ioutil.ReadFile(versionPath)
if err != nil && !os.IsNotExist(err) { panic(err) }
if string(currentVersionBytes) == latestVersion.Original() {
    fmt.Printf("Skipping  package '%s'. Version is unchanged.\n", packageName)
    continue
}
for _, b := range blobs { ... }
err = ioutil.WriteFile(versionPath, []byte(latestVersion.Original()), 0755)
```
-/
def processDependency (marker : Option String) (ver : String)
    (pkg fileName blobFilePath url newSha : String) (blobs : List Blob) :
    List Action :=
  if marker.getD "" = ver then [Action.skipUnchangedVersion pkg]
  else
    blobActions pkg fileName blobFilePath url newSha blobs ++
      [Action.writeMarker ver]

/-- `ioutil.WriteFile(versionPath, []byte(v), 0755)` (part_002 line
288): the file afterwards holds exactly the bytes of `v`, with no
transformation. -/
def writeVersionFile (v : String) : Option String :=
  some v

/-- `string(ioutil.ReadFile(versionPath))` (part_002 lines 244-249): a
missing file (`os.IsNotExist`) yields the empty byte slice, an existing
file yields its exact content; no trimming is applied in either case. -/
def readVersionFile (fs : Option String) : String :=
  fs.getD ""

/-- How a run of `main` terminates. -/
inductive RunOutcome where
  /-- `os.Exit(code)` -/
  | exited (code : Nat)
  /-- a Go `panic` (process aborts with a non-zero status) -/
  | panicked
  /-- `main` returned normally: process exit code 0 -/
  | finished
  deriving DecidableEq, Repr

/-- The tail of `main` in src/main.go (lines 301-330) after
`config/blobs.yml` was staged: check the git staging status of the
manifest, and on no modification print and `os.Exit(1)`; otherwise run
`boshUploadBlobs` and then commit, panicking on either error.

```
if status.File(b).Staging != git.Modified {
    fmt.Println("No changes in git detected.")
    os.Exit(1)
}
err = boshUploadBlobs(releaseDir)
if err != nil { panic(err) }
... w.Commit(...) ...
```

The returned `Bool` records whether `boshUploadBlobs` was invoked. -/
def finalizeRun (stagingModified uploadOk commitOk : Bool) :
    RunOutcome × Bool :=
  if stagingModified then
    if uploadOk then
      if commitOk then (.finished, true) else (.panicked, true)
    else (.panicked, true)
  else (.exited 1, false)

/-! ### Supporting lemmas -/

/-- Once `latestVersion` is nil, the loop either stays at nil (only
empty lines remain) or panics on the first non-empty line. -/
theorem runLoop_none_or (l : List String) :
    runLoop none l = .ok none ∨ runLoop none l = .error .nilVersionDeref := by
  induction l with
  | nil => exact .inl rfl
  | cons a t ih =>
    by_cases ha : a = ""
    · simpa [runLoop, ha] using ih
    · right
      simp [runLoop, ha]

/-- An infix of the left part of an append is an infix of the append. -/
theorem isInfix_append_left {α : Type} {l xs ys : List α} (h : l <:+: xs) :
    l <:+: xs ++ ys := by
  obtain ⟨s, t, rfl⟩ := h
  exact ⟨s, t ++ ys, by simp⟩

/-- An infix of the right part of an append is an infix of the append. -/
theorem isInfix_append_right {α : Type} {l xs ys : List α} (h : l <:+: ys) :
    l <:+: xs ++ ys := by
  obtain ⟨s, t, rfl⟩ := h
  exact ⟨xs ++ s, t, by simp⟩

/-- A `remove-blob` call in the step for one manifest entry identifies
that entry: its package matched and its recorded digest differed. -/
theorem removeBlob_mem_blobStep {pkg fileName blobFilePath url newSha p : String}
    {b : Blob} (h : Action.removeBlob p ∈ blobStep pkg fileName blobFilePath url newSha b) :
    b.path = p ∧ b.packageName = pkg ∧ b.sha ≠ newSha := by
  unfold blobStep at h
  by_cases hpkg : b.packageName = pkg
  · by_cases hsha : b.sha = newSha
    · simp [hpkg, hsha] at h
    · simp [hpkg, hsha] at h
      exact ⟨h.symm, hpkg, hsha⟩
  · simp [hpkg] at h

/-- A `remove-blob` call in the whole loop comes from some manifest
entry with that path whose digest differed. -/
theorem removeBlob_mem_blobActions {pkg fileName blobFilePath url newSha p : String} :
    ∀ {blobs : List Blob},
      Action.removeBlob p ∈ blobActions pkg fileName blobFilePath url newSha blobs →
      ∃ b ∈ blobs, b.path = p ∧ b.sha ≠ newSha := by
  intro blobs
  induction blobs with
  | nil => intro h; simp [blobActions] at h
  | cons b rest ih =>
    intro h
    rw [blobActions, List.mem_append] at h
    rcases h with h | h
    · obtain ⟨hp, _, hs⟩ := removeBlob_mem_blobStep h
      exact ⟨b, List.mem_cons_self b rest, hp, hs⟩
    · obtain ⟨b', hb', hp, hs⟩ := ih h
      exact ⟨b', List.mem_cons_of_mem b hb', hp, hs⟩

/-- The step of any entry of the manifest list is an infix of the
action trace of the whole loop. -/
theorem blobStep_isInfix_blobActions {pkg fileName blobFilePath url newSha : String}
    {b : Blob} : ∀ {blobs : List Blob}, b ∈ blobs →
    blobStep pkg fileName blobFilePath url newSha b <:+:
      blobActions pkg fileName blobFilePath url newSha blobs := by
  intro blobs
  induction blobs with
  | nil => intro h; simp at h
  | cons b0 rest ih =>
    intro h
    rw [blobActions]
    rcases List.mem_cons.mp h with h | h
    · subst h
      exact isInfix_append_left (List.infix_refl _)
    · exact isInfix_append_right (ih h)

/-! ### The claims -/

/-- C1: the claim says a parse failure of a single version-check line
is ignored and the maximum of the parsable subset is returned.  In the
code (src/main.go lines 225-235) the failed parse yields a nil
`*version.Version` whose error is discarded by `v, _ :=`, and the nil
is then passed to `latestVersion.LessThan`, which dereferences it and
panics: on the lines `7.0` and `garbage` the resolver aborts the whole
run instead of returning `7.0`. -/
theorem version_resolver_parse_failure_panics :
    resolveFromList ["7.0", "garbage"] = .error .nilVersionDeref :=
  rfl

/-- C2: in the slow path (src/main.go lines 259-291) every manifest
entry of the dependency's package is fetched and its recorded digest
compared with the freshly computed one: an identical digest leaves the
entry untouched (it is classified unchanged, and no `remove-blob` for
its path appears anywhere in the loop's action trace), while a
differing digest classifies it as changed and issues the paired
`remove-blob` of the old path immediately followed by the `add-blob`
of the new path. -/
theorem change_detector_slow_path
    (blobs : List Blob) (pkg fileName blobFilePath url newSha : String) (b : Blob)
    (hnd : (blobs.map Blob.path).Nodup) (hb : b ∈ blobs)
    (hpkg : b.packageName = pkg) :
    (b.sha = newSha →
      blobStep pkg fileName blobFilePath url newSha b =
        [Action.fetch blobFilePath url, Action.skipUnchangedDigest pkg newSha] ∧
      Action.removeBlob b.path ∉
        blobActions pkg fileName blobFilePath url newSha blobs) ∧
    (b.sha ≠ newSha →
      blobStep pkg fileName blobFilePath url newSha b =
        [Action.fetch blobFilePath url, Action.removeBlob b.path,
         Action.addBlob blobFilePath (pkg ++ "/" ++ fileName)] ∧
      [Action.removeBlob b.path,
       Action.addBlob blobFilePath (pkg ++ "/" ++ fileName)] <:+:
        blobActions pkg fileName blobFilePath url newSha blobs) := by
  constructor
  · intro hsha
    refine ⟨by simp [blobStep, hpkg, hsha], ?_⟩
    intro hmem
    obtain ⟨b', hb', hp, hs⟩ := removeBlob_mem_blobActions hmem
    have : b' = b := List.inj_on_of_nodup_map hnd hb' hb hp
    subst this
    exact hs hsha
  · intro hsha
    have hstep : blobStep pkg fileName blobFilePath url newSha b =
        [Action.fetch blobFilePath url, Action.removeBlob b.path,
         Action.addBlob blobFilePath (pkg ++ "/" ++ fileName)] := by
      simp [blobStep, hpkg, hsha]
    refine ⟨hstep, ?_⟩
    have h1 : [Action.removeBlob b.path,
        Action.addBlob blobFilePath (pkg ++ "/" ++ fileName)] <:+:
        blobStep pkg fileName blobFilePath url newSha b := by
      rw [hstep]
      exact ⟨[Action.fetch blobFilePath url], [], rfl⟩
    exact h1.trans (blobStep_isInfix_blobActions hb)

/-- C2 witness: a two-entry manifest; the `curl` entry with the
matching digest produces no `remove-blob`, and with a differing digest
the remove/add pair appears in the trace. -/
theorem change_detector_slow_path_witness :
    (Action.removeBlob "curl/a.tgz" ∉
      blobActions "curl" "f.tgz" "/tmp/f.tgz" "http://u" "sha256:aaa"
        [⟨"curl/a.tgz", "curl", "sha256:aaa"⟩, ⟨"other/b.tgz", "other", "sha256:bbb"⟩]) ∧
    ([Action.removeBlob "curl/a.tgz",
      Action.addBlob "/tmp/f.tgz" ("curl" ++ "/" ++ "f.tgz")] <:+:
      blobActions "curl" "f.tgz" "/tmp/f.tgz" "http://u" "sha256:new"
        [⟨"curl/a.tgz", "curl", "sha256:aaa"⟩, ⟨"other/b.tgz", "other", "sha256:bbb"⟩]) :=
  ⟨((change_detector_slow_path _ "curl" "f.tgz" "/tmp/f.tgz" "http://u" "sha256:aaa"
      ⟨"curl/a.tgz", "curl", "sha256:aaa"⟩ (by decide) (by decide) rfl).1 rfl).2,
   ((change_detector_slow_path _ "curl" "f.tgz" "/tmp/f.tgz" "http://u" "sha256:new"
      ⟨"curl/a.tgz", "curl", "sha256:aaa"⟩ (by decide) (by decide) rfl).2 (by decide)).2⟩

/-- C3: when the version-marker file exists and its content equals the
newly resolved version (src/unnamed/part_002 lines 242-252), the
dependency is classified unchanged (the skip message) and the rest of
the pipeline is skipped: in particular no `DownloadFile` call — no
`Action.fetch` — occurs for it. -/
theorem change_detector_fast_path
    (ver pkg fileName blobFilePath url newSha : String) (blobs : List Blob) :
    processDependency (some ver) ver pkg fileName blobFilePath url newSha blobs =
      [Action.skipUnchangedVersion pkg] ∧
    ∀ p u, Action.fetch p u ∉
      processDependency (some ver) ver pkg fileName blobFilePath url newSha blobs := by
  have h : processDependency (some ver) ver pkg fileName blobFilePath url newSha blobs =
      [Action.skipUnchangedVersion pkg] := by
    simp [processDependency]
  exact ⟨h, by intro p u; rw [h]; simp⟩

/-- C4 counterexample: on empty version-check output (`TrimSpace` +
`Split` yield the single empty line) the resolver does not produce a
typed `NoVersionsFoundError` — no such value exists anywhere in the
program — but aborts with an untyped nil-pointer panic when
`latestVersion.Original()` dereferences the nil seed version. -/
theorem resolver_empty_input_is_untyped_panic :
    resolveFromList [""] = .error .nilVersionDeref :=
  rfl

/-- C4 amended: when the input is empty or every line fails to parse,
the resolver aborts the run with a nil-`Version` dereference panic (an
untyped runtime abort), rather than returning a typed
`NoVersionsFoundError`. -/
theorem resolver_no_parsable_line_aborts (lines : List String)
    (h : ∀ l ∈ lines, newVersion l = none) :
    resolveFromList lines = .error .nilVersionDeref := by
  cases lines with
  | nil => rfl
  | cons a t =>
    have hseed : newVersion a = none := h a (List.mem_cons_self a t)
    have hdef : resolveFromList (a :: t) =
        match runLoop (newVersion a) t with
        | .error p => .error p
        | .ok none => .error .nilVersionDeref
        | .ok (some v) => .ok v := rfl
    rw [hdef, hseed]
    rcases runLoop_none_or t with h1 | h1 <;> rw [h1]

/-- C4 witness: a list of two unparsable lines. -/
theorem resolver_no_parsable_line_aborts_witness :
    resolveFromList ["x.y", ""] = .error .nilVersionDeref :=
  resolver_no_parsable_line_aborts ["x.y", ""] (by decide)

/-- C5: the shape enforcement of the Artifact Locator (src/main.go
lines 249-255): two or more file entries abort with the
multiple-files panic, a single file with two or more URLs aborts with
the multiple-URLs panic, and exactly one file with exactly one URL
succeeds. -/
theorem artifact_locator_shape_enforcement (m : Metalink) :
    (2 ≤ m.files.length → locateFile m = .error .multipleFilesPanic) ∧
    (∀ f, m.files = [f] → 2 ≤ f.urls.length →
      locateFile m = .error .multipleUrlsPanic) ∧
    (∀ f, m.files = [f] → f.urls.length = 1 → locateFile m = .ok f) := by
  refine ⟨fun h => ?_, fun f hf hu => ?_, fun f hf hu => ?_⟩
  · unfold locateFile
    rw [if_pos (by omega)]
  · unfold locateFile
    rw [hf]
    simp only [List.length_singleton]
    rw [if_neg (by omega), if_pos (by omega)]
  · unfold locateFile
    rw [hf]
    simp only [List.length_singleton]
    rw [if_neg (by omega), if_neg (by omega)]

/-- C5 witness: concrete descriptors with two files, with one file and
two URLs, and with one file and one URL. -/
theorem artifact_locator_shape_enforcement_witness :
    locateFile ⟨[⟨"a", ["u"]⟩, ⟨"b", ["u"]⟩]⟩ = .error .multipleFilesPanic ∧
    locateFile ⟨[⟨"a", ["u1", "u2"]⟩]⟩ = .error .multipleUrlsPanic ∧
    locateFile ⟨[⟨"a", ["u"]⟩]⟩ = .ok ⟨"a", ["u"]⟩ :=
  ⟨(artifact_locator_shape_enforcement ⟨[⟨"a", ["u"]⟩, ⟨"b", ["u"]⟩]⟩).1 (by decide),
   (artifact_locator_shape_enforcement ⟨[⟨"a", ["u1", "u2"]⟩]⟩).2.1 _ rfl (by decide),
   (artifact_locator_shape_enforcement ⟨[⟨"a", ["u"]⟩]⟩).2.2 _ rfl rfl⟩

/-- C6: the claim says a transfer that fails partway never yields a
successful result carrying the truncated file's digest.  In
`DownloadFile` (src/main.go lines 84-113) the `io.Copy` error is
overwritten by the `os.Chmod` result before it is checked, so a failed
copy that wrote only a truncated prefix falls through to the digest
computation and the function returns a nil error together with a
`Blob` whose `Sha` is the digest of the truncated bytes on disk. -/
theorem download_partial_copy_reports_success :
    downloadFile (.delivered "trunc" true) false false =
      .ok ⟨"", "", "sha256:" ++ sha256hex "trunc"⟩ :=
  rfl

/-- C7: the claim says a parse failure of the artifact-locate output
is propagated as a typed `ArtifactDescriptorParseError`.  In the code
(src/main.go lines 243-247, src/unnamed/part_002 lines 228-232) the
wrapped error produced by `errors.Wrap` is discarded and execution
continues with the zero-value descriptor, so for every parse error the
run instead aborts later with the unguarded `Files[0]` index panic —
the parse error itself is silently swallowed and never reaches any
caller. -/
theorem metalink_parse_error_swallowed (e : String) :
    locateArtifact (.error e) = .error .indexOutOfRangePanic :=
  rfl

/-- C8 counterexample: with no staged modification of the manifest the
run skips the upload but terminates via `os.Exit(1)` — exit code 1,
not the claimed 0. -/
theorem noop_run_exit_code_counterexample :
    finalizeRun false true true = (.exited 1, false) ∧
    RunOutcome.exited 1 ≠ RunOutcome.exited 0 :=
  ⟨rfl, by decide⟩

/-- C8 amended: when no staged modification of `config/blobs.yml` is
detected, the final `upload-blobs` call is skipped, and the run
terminates through `os.Exit(1)`: the no-op outcome carries the
non-zero exit code 1 and is therefore not distinguishable from failure
by a zero exit code. -/
theorem noop_run_skips_upload_and_exits_one (uploadOk commitOk : Bool) :
    finalizeRun false uploadOk commitOk = (.exited 1, false) :=
  rfl

/-- C9: writing the version marker stores exactly the bytes of `V` and
re-reading returns exactly those bytes; neither direction trims or
transforms (src/unnamed/part_002 lines 288-291 and 242-249). -/
theorem version_marker_round_trip (v : String) :
    readVersionFile (writeVersionFile v) = v :=
  rfl

/-- C10: a descriptor with zero file entries passes the `len > 1`
guard (which only rejects more than one file) and then aborts at the
unguarded `meta4.Files[0]` access with an index-out-of-range panic —
not with either of the documented unsupported-shape panics. -/
theorem zero_files_unguarded_index_panic (m : Metalink) (h : m.files = []) :
    locateFile m = .error .indexOutOfRangePanic ∧
    locateFile m ≠ .error .multipleFilesPanic ∧
    locateFile m ≠ .error .multipleUrlsPanic := by
  obtain ⟨files⟩ := m
  simp only [Metalink.mk.injEq] at h ⊢
  subst h
  refine ⟨rfl, ?_, ?_⟩ <;> intro hc <;> injection hc with h2 <;> cases h2

/-- C10 witness: the empty descriptor. -/
theorem zero_files_unguarded_index_panic_witness :
    locateFile ⟨[]⟩ = .error .indexOutOfRangePanic ∧
    locateFile ⟨[]⟩ ≠ .error .multipleFilesPanic ∧
    locateFile ⟨[]⟩ ≠ .error .multipleUrlsPanic :=
  zero_files_unguarded_index_panic ⟨[]⟩ rfl

end BoshBlobsUpgrader
